import Mathlib

/-!
Shallow embedding of the HyprAI daemon's context/action pipeline:
`ActionDispatcher` (src/daemon/core/action_dispatcher.py),
the command-history part of `ContextEngine` (src/daemon/core/context_engine.py)
and the event loop of `HyprlandMonitor` (src/daemon/core/hyprland_monitor.py).

Python dict/list/str values are embedded as the inductive type `Val`.
External side effects (subprocesses, the filesystem, sqlite) are made
explicit in a `World` state threaded through every operation; subprocess
outputs come from oracle functions stored in the world, and sqlite insert
failures are driven by an explicit schedule so that persistence-failure
behaviour can be analysed.  A Python exception that propagates is the
`.error` case of `Except String`.
-/

namespace HyprAI

/-- Embedded Python values (strings, ints, booleans, lists, dicts, None). -/
inductive Val where
  | s : String → Val
  | i : Int → Val
  | b : Bool → Val
  | list : List Val → Val
  | dict : List (String × Val) → Val
  | none : Val
deriving Repr

mutual
/-- Python `repr` of a value as used by `str(action)` / `str(result)` in
`_execute_single_action` (string escaping elided: the history claims never
inspect these strings). -/
def pyRepr : Val → String
  | .s x => "'" ++ x ++ "'"
  | .i n => toString n
  | .b true => "True"
  | .b false => "False"
  | .none => "None"
  | .list xs => "[" ++ pyReprList xs ++ "]"
  | .dict kvs => "\x7b" ++ pyReprKVs kvs ++ "\x7d"

/-- `repr` of the elements of a Python list, comma separated. -/
def pyReprList : List Val → String
  | [] => ""
  | [x] => pyRepr x
  | x :: y :: xs => pyRepr x ++ ", " ++ pyReprList (y :: xs)

/-- `repr` of the entries of a Python dict, comma separated. -/
def pyReprKVs : List (String × Val) → String
  | [] => ""
  | [(k, v)] => "'" ++ k ++ "': " ++ pyRepr v
  | (k, v) :: p :: kvs => "'" ++ k ++ "': " ++ pyRepr v ++ ", " ++ pyReprKVs (p :: kvs)
end

/-- `str(x)` for the top-level value (Python `str` of a `str` has no quotes). -/
def pyStr : Val → String
  | .s x => x
  | v => pyRepr v

/-- Look a key up in an embedded dict (`d.get(k)`); `Option.none` when the
value is not a dict or the key is absent. -/
def Val.get : Val → String → Option Val
  | .dict kvs, k => kvs.lookup k
  | _, _ => Option.none

/-- `ConfigManager` (src/daemon/core/config_manager.py): a parsed ini file,
modelled as an association list from (section, key) to the parsed boolean.
`get_bool(section, key, fallback)` returns the entry or the fallback. -/
structure Config where
  table : List ((String × String) × Bool)

def Config.get_bool (c : Config) (sect key : String) (fallback : Bool) : Bool :=
  match c.table.lookup (sect, key) with
  | some b => b
  | Option.none => fallback

/-- One row of the sqlite `command_history` table
(`command`, `output`, `success`); the autoincrement id is implicit in the
list position and the timestamp is carried alongside (see `World.history`). -/
structure HRecord where
  command : String
  output : String
  success : Bool
deriving Repr, DecidableEq

/-- Outcome of `asyncio.create_subprocess_shell` + `wait_for` in
`shell_exec`: either completion with a return code and captured output, or
an `asyncio.TimeoutError`. -/
inductive ShellOutcome where
  | done (rc : Int) (stdout stderr : String)
  | timedOut

/-- The explicit state threaded through the dispatcher and context engine.

* `config` — the process configuration, read at the moment of each use;
* `has_wtype`/`has_grim`/`has_wlrctl` — tool availability (`shutil.which`);
* `fs` — the filesystem as expanded-path ↦ content;
* `expanduser` — `Path(...).expanduser()`;
* `spawnedShell` — commands handed to `create_subprocess_shell`, in order;
* `spawnedCmds` — argv lists handed to `subprocess.run`, in order;
* `shellOracle`/`runOracle` — outputs of those subprocesses;
* `history` — the `command_history` table: rows stamped with the
  wall-clock second current at their insert;
* `clock` — the wall-clock second that `CURRENT_TIMESTAMP` reads.
  sqlite's `CURRENT_TIMESTAMP` has one-second resolution, so consecutive
  inserts within the same second receive equal timestamps; the program
  never advances this clock — time passes only externally (worlds with a
  larger `clock`);
* `failSchedule` — per-insert persistence outcomes: the head decides
  whether the next `store_command` insert raises (`true` = raises);
  an empty schedule means persistence keeps succeeding. -/
structure World where
  config : Config
  has_wtype : Bool
  has_grim : Bool
  has_wlrctl : Bool
  fs : List (String × String)
  expanduser : String → String
  spawnedShell : List String
  spawnedCmds : List (List String)
  shellOracle : String → ShellOutcome
  runOracle : List String → String × String × Int
  history : List (Nat × HRecord)
  clock : Nat
  failSchedule : List Bool

/-- `ContextEngine.store_command`: INSERT INTO command_history.  Returns
the new world and whether the insert succeeded (`false` = the sqlite call
raised; the row is not stored).  The row is stamped with the current
wall-clock second `w.clock` (`DEFAULT CURRENT_TIMESTAMP`); the clock is
not advanced — a later insert in the same second ties with this one. -/
def store_command (w : World) (command output : String) (success : Bool) :
    World × Bool :=
  let r : HRecord := ⟨command, output, success⟩
  match w.failSchedule with
  | [] =>
      ({ w with history := w.history ++ [(w.clock, r)] }, true)
  | b :: rest =>
      if b then
        ({ w with failSchedule := rest }, false)
      else
        ({ w with history := w.history ++ [(w.clock, r)],
                  failSchedule := rest }, true)

/-- The row → dict projection done by `_get_recent_commands`. -/
def rowVal (r : HRecord) : Val :=
  Val.dict [("cmd", Val.s r.command), ("output", Val.s r.output),
            ("success", Val.b r.success)]

/-- A possible result of `ContextEngine._get_recent_commands(limit)`:
`SELECT command, output, success FROM command_history
 ORDER BY timestamp DESC LIMIT ?`, each row returned as
`{"cmd": ..., "output": ..., "success": ...}`.
The query orders by `timestamp` alone — no id tiebreak — and timestamps
have one-second resolution, so sqlite may return the rows in any order
consistent with the sort key: any permutation of the table whose
timestamps are weakly descending, truncated by `LIMIT`.  The embedding is
therefore a relation over the admissible outputs. -/
def recentPossible (w : World) (limit : Nat) (out : List Val) : Prop :=
  ∃ rows : List (Nat × HRecord), rows.Perm w.history ∧
    rows.Pairwise (fun p q => q.1 ≤ p.1) ∧
    out = (rows.take limit).map fun p => rowVal p.2

/-! ## The action handlers (`ActionDispatcher`) -/

/-- Python's truthiness test `if x:` for an optional string
(`None` and `""` are falsy). -/
def truthy : Option String → Bool
  | Option.none => false
  | some s => s ≠ ""

/-- Python `str.split()` with no argument: split on whitespace, dropping
empty pieces (used by `hyprctl_command` on its command string). -/
def pySplitWs (s : String) : List String :=
  (s.split Char.isWhitespace).filter (· ≠ "")

/-- `subprocess.run(cmd, capture_output=True, text=True)`: record the spawn
and produce the `{"stdout": ..., "stderr": ..., "rc": ...}` dict built by
the keyboard/mouse/hyprctl handlers. -/
def runCmd (w : World) (argv : List String) : Val × World :=
  let (out, err, rc) := w.runOracle argv
  (Val.dict [("stdout", Val.s out), ("stderr", Val.s err), ("rc", Val.i rc)],
   { w with spawnedCmds := w.spawnedCmds ++ [argv] })

/-- `ActionDispatcher.shell_exec(command, timeout=30)`: gated on the
`automation.enable_shell` config boolean, read at call time; when enabled,
spawn the shell command and either return its output or, on timeout, kill
it and return `{"error": "timeout"}`. -/
def shell_exec (w : World) (command : String) (_timeout : Int := 30) :
    Val × World :=
  if !(w.config.get_bool "automation" "enable_shell" false) then
    (Val.dict [("error", Val.s "shell execution disabled")], w)
  else
    let w1 := { w with spawnedShell := w.spawnedShell ++ [command] }
    match w.shellOracle command with
    | .done rc out err =>
        (Val.dict [("returncode", Val.i rc), ("stdout", Val.s out),
                   ("stderr", Val.s err)], w1)
    | .timedOut => (Val.dict [("error", Val.s "timeout")], w1)

/-- `ActionDispatcher.hyprctl_command(command)`: run
`["hyprctl"] + command.split()` and pass the output through. -/
def hyprctl_command (w : World) (command : String) : Val × World :=
  runCmd w ("hyprctl" :: pySplitWs command)

/-- `ActionDispatcher.window_control(action, target=None)`: map the logical
action to a `hyprctl` dispatch command (an absent target renders as the
string `None`, as in the source's f-strings); an unsupported logical action
is an error dict. -/
def window_control (w : World) (action : String) (target : String := "None") :
    Val × World :=
  match action with
  | "focus" => hyprctl_command w ("dispatch focuswindow " ++ target)
  | "close" => hyprctl_command w ("dispatch closewindow " ++ target)
  | "fullscreen" => hyprctl_command w "dispatch fullscreen"
  | _ =>
      (Val.dict [("error", Val.s ("unsupported window action " ++ action))], w)

/-- `ActionDispatcher.keyboard_input(keys=None, text=None)`. -/
def keyboard_input (w : World) (keys text : Option String) : Val × World :=
  if truthy text then
    let t := text.getD ""
    if w.has_wtype then runCmd w ["wtype", t]
    else (Val.dict [("dry_run", Val.b true), ("text", Val.s t)], w)
  else if truthy keys then
    if w.has_wtype then
      let seq := (keys.getD "").replace "+" " "
      runCmd w ["wtype", seq]
    else (Val.dict [("error", Val.s "no wtype installed to emit keys")], w)
  else (Val.dict [("error", Val.s "no keys or text provided")], w)

/-- `ActionDispatcher.mouse_action(action="move", x=0, y=0, button=1)`. -/
def mouse_action (w : World) (action : String := "move") (x : Int := 0)
    (y : Int := 0) (button : Int := 1) : Val × World :=
  if !w.has_wlrctl then
    (Val.dict [("error", Val.s "no wlrctl installed for mouse control")], w)
  else if action = "move" then
    runCmd w ["wlrctl", "cursor", "warp", toString x, toString y]
  else if action = "click" then
    runCmd w ["wlrctl", "pointer", "button", toString button, "press"]
  else (Val.dict [("error", Val.s ("unknown mouse action " ++ action))], w)

/-- `ActionDispatcher.take_screenshot(region=None)`: run `grim`
(region-scoped via `-g` when a region is given) and return the size of the
captured bytes plus the return code, not the bytes themselves. -/
def take_screenshot (w : World) (region : Option String) : Val × World :=
  if !w.has_grim then (Val.dict [("error", Val.s "grim not available")], w)
  else
    let argv :=
      if truthy region then ["grim", "-g", region.getD "", "-"]
      else ["grim", "-"]
    let (out, _err, rc) := w.runOracle argv
    (Val.dict [("size", Val.i out.length), ("rc", Val.i rc)],
     { w with spawnedCmds := w.spawnedCmds ++ [argv] })

/-- Create-or-truncate at a key of the filesystem association list
(`Path.write_text`). -/
def fsWrite (fs : List (String × String)) (p c : String) :
    List (String × String) :=
  (p, c) :: fs.filter (fun q => q.1 ≠ p)

/-- `ActionDispatcher.file_operation(operation, path, content=None)`:
read/write/append at the user-expanded path.  `read_text` of a missing path
raises (`.error`); `content or ""` turns an absent/empty content into `""`;
no capability flag is consulted anywhere in this handler. -/
def file_operation (w : World) (operation path : String)
    (content : Option String) : Except String (Val × World) :=
  match operation with
  | "read" =>
      match w.fs.lookup (w.expanduser path) with
      | some c => .ok (Val.dict [("content", Val.s c)], w)
      | Option.none => .error ("FileNotFoundError: " ++ w.expanduser path)
  | "write" =>
      .ok (Val.dict [("success", Val.b true)],
           { w with fs := fsWrite w.fs (w.expanduser path) (content.getD "") })
  | "append" =>
      .ok (Val.dict [("success", Val.b true)],
           { w with fs := (fsWrite w.fs (w.expanduser path)
               ((((w.fs.lookup (w.expanduser path)).getD "") ++
                 content.getD ""))) })
  | _ => .ok (Val.dict [("error", Val.s "unknown file op")], w)

/-! ## Keyword-argument decoding and dispatch

`handler(**params)` binds the string-keyed parameter dict to the handler's
signature: extra keys land in `**kwargs` and are ignored, a missing
required argument raises `TypeError` before the handler body runs, and a
value of the wrong shape raises inside the call.  Both raises happen inside
the dispatcher's `try`, so they surface as action-level failures. -/

/-- Required string argument. -/
def getStr (ps : List (String × Val)) (k : String) : Except String String :=
  match ps.lookup k with
  | some (Val.s v) => .ok v
  | some _ => .error ("TypeError: argument " ++ k)
  | Option.none => .error ("TypeError: missing required argument " ++ k)

/-- Optional string argument defaulting to `None`. -/
def getStrOpt (ps : List (String × Val)) (k : String) :
    Except String (Option String) :=
  match ps.lookup k with
  | some (Val.s v) => .ok (some v)
  | some Val.none => .ok Option.none
  | some _ => .error ("TypeError: argument " ++ k)
  | Option.none => .ok Option.none

/-- String argument with a default. -/
def getStrD (ps : List (String × Val)) (k d : String) : Except String String :=
  match ps.lookup k with
  | some (Val.s v) => .ok v
  | some _ => .error ("TypeError: argument " ++ k)
  | Option.none => .ok d

/-- Int argument with a default. -/
def getIntD (ps : List (String × Val)) (k : String) (d : Int) :
    Except String Int :=
  match ps.lookup k with
  | some (Val.i v) => .ok v
  | some _ => .error ("TypeError: argument " ++ k)
  | Option.none => .ok d

/-- A handler under the shared "parameters → result or raised exception"
contract of `_execute_single_action`. -/
def Handler : Type :=
  World → List (String × Val) → Except String (Val × World)

/-- `self.keyboard_input` as called with `**params`. -/
def keyboardH : Handler := fun w ps => do
  let keys ← getStrOpt ps "keys"
  let text ← getStrOpt ps "text"
  .ok (keyboard_input w keys text)

/-- `self.mouse_action` as called with `**params`. -/
def mouseH : Handler := fun w ps => do
  let a ← getStrD ps "action" "move"
  let x ← getIntD ps "x" 0
  let y ← getIntD ps "y" 0
  let btn ← getIntD ps "button" 1
  .ok (mouse_action w a x y btn)

/-- `self.shell_exec` as called with `**params`. -/
def shellH : Handler := fun w ps => do
  let c ← getStr ps "command"
  let t ← getIntD ps "timeout" 30
  .ok (shell_exec w c t)

/-- `self.hyprctl_command` as called with `**params`. -/
def hyprctlH : Handler := fun w ps => do
  let c ← getStr ps "command"
  .ok (hyprctl_command w c)

/-- `self.window_control` as called with `**params`. -/
def windowH : Handler := fun w ps => do
  let a ← getStr ps "action"
  let tgt ← getStrOpt ps "target"
  .ok (window_control w a (tgt.getD "None"))

/-- `self.take_screenshot` as called with `**params`. -/
def screenshotH : Handler := fun w ps => do
  let r ← getStrOpt ps "region"
  .ok (take_screenshot w r)

/-- `self.file_operation` as called with `**params`. -/
def fileH : Handler := fun w ps => do
  let op ← getStr ps "operation"
  let p ← getStr ps "path"
  let c ← getStrOpt ps "content"
  file_operation w op p c

/-- The fixed handler table of `_execute_single_action` (note: there is no
`"response"` entry in the source). -/
def handlerFor : String → Option Handler
  | "keyboard" => some keyboardH
  | "mouse" => some mouseH
  | "shell" => some shellH
  | "hyprctl" => some hyprctlH
  | "window" => some windowH
  | "screenshot" => some screenshotH
  | "file" => some fileH
  | _ => Option.none

/-- `handlers.get(t)` where `t = action.get("type")` may be any value or
absent; only a string key can hit the table. -/
def handlerForVal : Option Val → Option Handler
  | some (Val.s t) => handlerFor t
  | _ => Option.none

/-- `f"unknown action type: {t}"` renders the raw looked-up value
(`None` when the key was absent). -/
def typeStr : Option Val → String
  | some v => pyStr v
  | Option.none => "None"

/-- `str(e)` of the exception raised by a failing sqlite insert. -/
def storeErrMsg : String := "sqlite3.OperationalError"

/-- `action.get("params", {})` followed by the `**params` unpacking at the
handler call (a non-mapping raises inside the `try`). -/
def invokeHandler (h : Handler) (w : World) (action : Val) :
    Except String (Val × World) :=
  match action.get "params" with
  | some (Val.dict ps) => h w ps
  | Option.none => h w []
  | some _ => .error "TypeError: params is not a mapping"

/-- `ActionDispatcher._execute_single_action(action)`.

* a non-dict action raises at `action.get` (outside the `try`): propagates;
* an unknown type returns the error dict before the `try`: no handler call,
  no history write;
* otherwise the handler runs; on success the dispatcher stores a success
  record and wraps the result, on a raise it stores a failure record and
  wraps the error.  A failing store on the success path is caught by the
  same `except`, downgrading the action to a failure (and attempting a
  failure-record store); a failing store on the failure path propagates. -/
def execSingle (w : World) (action : Val) : Except String (Val × World) :=
  match action with
  | Val.dict kvs =>
      let t := kvs.lookup "type"
      match handlerForVal t with
      | Option.none =>
          .ok (Val.dict
                 [("error", Val.s ("unknown action type: " ++ typeStr t))], w)
      | some h =>
          match invokeHandler h w (Val.dict kvs) with
          | .ok (res, w1) =>
              let st1 := store_command w1 (pyStr (Val.dict kvs)) (pyStr res) true
              if st1.2 then
                .ok (Val.dict [("success", Val.b true), ("result", res)], st1.1)
              else
                let st2 :=
                  store_command st1.1 (pyStr (Val.dict kvs)) storeErrMsg false
                if st2.2 then
                  .ok (Val.dict [("success", Val.b false),
                                 ("error", Val.s storeErrMsg)], st2.1)
                else .error storeErrMsg
          | .error e =>
              let st1 := store_command w (pyStr (Val.dict kvs)) e false
              if st1.2 then
                .ok (Val.dict [("success", Val.b false),
                               ("error", Val.s e)], st1.1)
              else .error storeErrMsg
  | _ => .error "AttributeError"

/-- The `for action in plan["actions"]` loop: strictly sequential, results
appended in submission order, a propagating exception aborts the loop. -/
def execActions (w : World) : List Val → Except String (List Val × World)
  | [] => .ok ([], w)
  | a :: rest =>
      match execSingle w a with
      | .error e => .error e
      | .ok (r, w1) =>
          match execActions w1 rest with
          | .error e => .error e
          | .ok (rs, w2) => .ok (r :: rs, w2)

/-- The shapes `execute_action_plan` distinguishes: a bare string, a dict
with an `"actions"` list, and everything else (a non-dict or a dict
without `"actions"`). -/
inductive Plan where
  | str (s : String)
  | withActions (actions : List Val)
  | invalid

/-- `ActionDispatcher.execute_action_plan(plan)`: a bare string is run as a
single shell action (its raw handler dict returned in a one-element list);
an invalid shape returns the plan-level `{"error": "invalid plan format"}`
dict; otherwise the actions run sequentially. -/
def execute_action_plan (w : World) (plan : Plan) :
    Except String (Val × World) :=
  match plan with
  | .str s =>
      .ok (Val.list [(shell_exec w s 30).1], (shell_exec w s 30).2)
  | .invalid => .ok (Val.dict [("error", Val.s "invalid plan format")], w)
  | .withActions acts =>
      match execActions w acts with
      | .error e => .error e
      | .ok (rs, w1) => .ok (Val.list rs, w1)

/-! ## The event feed tailer (`HyprlandMonitor.monitor_events`)

The two nested `while` loops are modelled as a trace over a list of
connection *episodes*: each iteration of the outer loop is one episode —
either the `open_unix_connection` raises (`connFail`), or it succeeds and
the inner read loop delivers some lines and then ends, by `readline`
returning empty bytes (`eof`, the `break`) or by an exception (`err`).
The produced trace records connection attempts, handled events and
`asyncio.sleep` calls in program order. -/

/-- How the inner read loop of one connection ends. -/
inductive ConnEnd where
  | eof
  | err (msg : String)
deriving DecidableEq, Repr

/-- One iteration of the outer `while True` loop. -/
inductive Episode where
  | conn (reads : List String) (ending : ConnEnd)
  | connFail (msg : String)
deriving DecidableEq, Repr

/-- Observable steps of the tailer. -/
inductive TraceEv where
  | connect
  | handle (line : String)
  | sleep (seconds : Nat)
deriving DecidableEq, Repr

/-- The trace of one outer-loop iteration: a connection attempt, the
handled lines, and — only when an exception was raised — the fixed
`asyncio.sleep(5)` of the `except` branch.  The `break` taken on
end-of-stream leaves the `try` without sleeping. -/
def episodeTrace : Episode → List TraceEv
  | .connFail _ => [.connect, .sleep 5]
  | .conn reads ending =>
      .connect :: reads.map TraceEv.handle ++
        (match ending with
         | .eof => []
         | .err _ => [.sleep 5])

/-- `HyprlandMonitor.monitor_events`: with no
`HYPRLAND_INSTANCE_SIGNATURE` the function logs once and returns (empty
trace); otherwise the outer loop runs one episode after another,
indefinitely. -/
def monitorTrace (signature : Option String) (eps : List Episode) :
    List TraceEv :=
  match signature with
  | Option.none => []
  | some _ => (eps.map episodeTrace).flatten

/-- Number of connection attempts in a trace. -/
def countConnects (tr : List TraceEv) : Nat :=
  (tr.filter (· = TraceEv.connect)).length

/-- The property claimed of the tailer: every reconnection attempt (every
`connect` after the first trace event) is immediately preceded by the
fixed backoff sleep. -/
def backoffBeforeReconnect (tr : List TraceEv) : Prop :=
  ∀ i, tr.get? (i + 1) = some TraceEv.connect →
    tr.get? i = some (TraceEv.sleep 5)

/-! ## Invariants and helper lemmas -/

/-- The parts of the world owned by the context engine: the history table,
its clock and the persistence-failure schedule.  Handlers never touch
them. -/
def storeKept (w w' : World) : Prop :=
  w'.history = w.history ∧ w'.clock = w.clock ∧
    w'.failSchedule = w.failSchedule

theorem storeKept_refl (w : World) : storeKept w w := ⟨rfl, rfl, rfl⟩

/-- Does the next `store_command` insert succeed? -/
def headOk : List Bool → Bool
  | [] => true
  | b :: _ => !b

theorem runCmd_storeKept (w : World) (argv : List String) :
    storeKept w (runCmd w argv).2 := by
  simp [runCmd, storeKept]

theorem shell_exec_storeKept (w : World) (c : String) (t : Int) :
    storeKept w (shell_exec w c t).2 := by
  unfold shell_exec
  split
  · exact storeKept_refl w
  · split <;> simp [storeKept]

theorem hyprctl_storeKept (w : World) (c : String) :
    storeKept w (hyprctl_command w c).2 := by
  unfold hyprctl_command; exact runCmd_storeKept _ _

theorem window_storeKept (w : World) (a t : String) :
    storeKept w (window_control w a t).2 := by
  unfold window_control
  split
  · exact hyprctl_storeKept _ _
  · exact hyprctl_storeKept _ _
  · exact hyprctl_storeKept _ _
  · exact storeKept_refl w

theorem keyboard_storeKept (w : World) (keys text : Option String) :
    storeKept w (keyboard_input w keys text).2 := by
  unfold keyboard_input
  split
  · split
    · exact runCmd_storeKept _ _
    · exact storeKept_refl w
  · split
    · split
      · exact runCmd_storeKept _ _
      · exact storeKept_refl w
    · exact storeKept_refl w

theorem mouse_storeKept (w : World) (a : String) (x y btn : Int) :
    storeKept w (mouse_action w a x y btn).2 := by
  unfold mouse_action
  split
  · exact storeKept_refl w
  · split
    · exact runCmd_storeKept _ _
    · split
      · exact runCmd_storeKept _ _
      · exact storeKept_refl w

theorem screenshot_storeKept (w : World) (r : Option String) :
    storeKept w (take_screenshot w r).2 := by
  unfold take_screenshot
  split
  · exact storeKept_refl w
  · simp [storeKept]

theorem file_storeKept (w : World) (op p : String) (c : Option String)
    (res : Val) (w' : World) (h : file_operation w op p c = .ok (res, w')) :
    storeKept w w' := by
  unfold file_operation at h
  split at h
  · split at h
    · cases h; exact storeKept_refl w
    · cases h
  · cases h; simp [storeKept]
  · cases h; simp [storeKept]
  · cases h; exact storeKept_refl w

/-- Inversion for a successful `Except` bind. -/
theorem exBind_ok {α β : Type} {x : Except String α} {f : α → Except String β}
    {b : β} (h : (x >>= f) = .ok b) : ∃ a, x = .ok a ∧ f a = .ok b := by
  cases x with
  | error e => simp [Bind.bind, Except.bind] at h
  | ok a => exact ⟨a, rfl, by simpa [Bind.bind, Except.bind] using h⟩

/-- From `.ok x = .ok (res, w')` read off the world component. -/
theorem ok_pair_snd {x : Val × World} {res : Val} {w' : World}
    (h : (Except.ok x : Except String (Val × World)) = .ok (res, w')) :
    w' = x.2 := by
  cases h; rfl

/-- Every handler of the fixed table leaves the context-engine state
(history, clock, persistence schedule) untouched when it returns
normally. -/
theorem handler_storeKept (t : String) (h : Handler) (w : World)
    (a : Val) (res : Val) (w' : World)
    (ht : handlerFor t = some h)
    (hr : invokeHandler h w a = .ok (res, w')) : storeKept w w' := by
  have main : ∀ ps, h w ps = .ok (res, w') → storeKept w w' := by
    intro ps hps
    unfold handlerFor at ht
    split at ht <;> cases ht <;>
      simp only [keyboardH, mouseH, shellH, hyprctlH, windowH, screenshotH,
        fileH] at hps
    · -- keyboard
      obtain ⟨keys, -, hps⟩ := exBind_ok hps
      obtain ⟨text, -, hps⟩ := exBind_ok hps
      rw [ok_pair_snd hps]; exact keyboard_storeKept _ _ _
    · -- mouse
      obtain ⟨a1, -, hps⟩ := exBind_ok hps
      obtain ⟨x1, -, hps⟩ := exBind_ok hps
      obtain ⟨y1, -, hps⟩ := exBind_ok hps
      obtain ⟨b1, -, hps⟩ := exBind_ok hps
      rw [ok_pair_snd hps]; exact mouse_storeKept _ _ _ _ _
    · -- shell
      obtain ⟨c1, -, hps⟩ := exBind_ok hps
      obtain ⟨t1, -, hps⟩ := exBind_ok hps
      rw [ok_pair_snd hps]; exact shell_exec_storeKept _ _ _
    · -- hyprctl
      obtain ⟨c1, -, hps⟩ := exBind_ok hps
      rw [ok_pair_snd hps]; exact hyprctl_storeKept _ _
    · -- window
      obtain ⟨a1, -, hps⟩ := exBind_ok hps
      obtain ⟨t1, -, hps⟩ := exBind_ok hps
      rw [ok_pair_snd hps]; exact window_storeKept _ _ _
    · -- screenshot
      obtain ⟨r1, -, hps⟩ := exBind_ok hps
      rw [ok_pair_snd hps]; exact screenshot_storeKept _ _
    · -- file
      obtain ⟨o1, -, hps⟩ := exBind_ok hps
      obtain ⟨p1, -, hps⟩ := exBind_ok hps
      obtain ⟨c1, -, hps⟩ := exBind_ok hps
      exact file_storeKept _ _ _ _ _ _ hps
  unfold invokeHandler at hr
  split at hr
  · exact main _ hr
  · exact main _ hr
  · cases hr

/-- A `store_command` whose scheduled insert succeeds appends exactly one
row, stamped with the current wall-clock second, which it leaves
unchanged. -/
theorem store_command_ok (w : World) (cmd out : String) (succ : Bool)
    (h : headOk w.failSchedule = true) :
    (store_command w cmd out succ).2 = true ∧
    (store_command w cmd out succ).1.history =
      w.history ++ [(w.clock, ⟨cmd, out, succ⟩)] ∧
    (store_command w cmd out succ).1.clock = w.clock := by
  unfold store_command headOk at *
  cases hs : w.failSchedule with
  | nil => simp [hs]
  | cons b rest =>
      rw [hs] at h
      simp only [Bool.not_eq_true'] at h
      subst h
      simp [hs]

/-- With an empty failure schedule, storing keeps the schedule empty. -/
theorem store_command_sched (w : World) (cmd out : String) (succ : Bool)
    (h : w.failSchedule = []) :
    (store_command w cmd out succ).1.failSchedule = [] := by
  unfold store_command
  rw [h]

/-- Whether an embedded value is a Python dict. -/
def Val.isDict : Val → Bool
  | .dict _ => true
  | _ => false

/-- A dict action with the store functioning executes without a
propagating exception and leaves the schedule empty. -/
theorem execSingle_total (w : World) (a : Val) (hd : a.isDict = true)
    (hs : w.failSchedule = []) :
    ∃ r w', execSingle w a = .ok (r, w') ∧ w'.failSchedule = [] := by
  cases a with
  | s x => simp [Val.isDict] at hd
  | i x => simp [Val.isDict] at hd
  | b x => simp [Val.isDict] at hd
  | list xs => simp [Val.isDict] at hd
  | none => simp [Val.isDict] at hd
  | dict kvs =>
      unfold execSingle
      dsimp only
      cases hh : handlerForVal (kvs.lookup "type") with
      | none => exact ⟨_, w, rfl, hs⟩
      | some h =>
          have ht : ∃ t, handlerFor t = some h := by
            unfold handlerForVal at hh
            split at hh
            · exact ⟨_, hh⟩
            · cases hh
          obtain ⟨t, ht⟩ := ht
          cases hi : invokeHandler h w (Val.dict kvs) with
          | ok rw1 =>
              obtain ⟨res, w1⟩ := rw1
              have hk := handler_storeKept t h w (Val.dict kvs) res w1 ht hi
              have hs1 : w1.failSchedule = [] := hk.2.2 ▸ hs
              have hok := store_command_ok w1 (pyStr (Val.dict kvs))
                (pyStr res) true (by rw [hs1]; rfl)
              dsimp only
              rw [hi]
              dsimp only
              rw [hok.1, if_pos rfl]
              exact ⟨_, _, rfl, store_command_sched w1 _ _ _ hs1⟩
          | error e =>
              have hok := store_command_ok w (pyStr (Val.dict kvs)) e false
                (by rw [hs]; rfl)
              dsimp only
              rw [hi]
              dsimp only
              rw [hok.1, if_pos rfl]
              exact ⟨_, _, rfl, store_command_sched w _ _ _ hs⟩

/-- The action loop with a functioning store and dict actions: all actions
run, results line up one-to-one with actions, and each result is the
single-action outcome of its action in the state reached after its
predecessors. -/
theorem execActions_total (acts : List Val) :
    ∀ w : World, (∀ a ∈ acts, a.isDict = true) → w.failSchedule = [] →
    ∃ rs w', execActions w acts = .ok (rs, w') ∧ w'.failSchedule = [] ∧
      rs.length = acts.length ∧
      ∀ i, i < acts.length →
        ∃ wi wi' a r, acts.get? i = some a ∧ rs.get? i = some r ∧
          execActions w (acts.take i) = .ok (rs.take i, wi) ∧
          execSingle wi a = .ok (r, wi') := by
  induction acts with
  | nil =>
      intro w _ hs
      exact ⟨[], w, rfl, hs, rfl, fun i hi => by simp at hi⟩
  | cons a rest ih =>
      intro w hd hs
      obtain ⟨r, w1, h1, hs1⟩ :=
        execSingle_total w a (hd a (List.mem_cons_self _ _)) hs
      obtain ⟨rs, w', h2, hs2, hlen, hcorr⟩ :=
        ih w1 (fun b hb => hd b (List.mem_cons_of_mem _ hb)) hs1
      refine ⟨r :: rs, w', ?_, hs2, by simp [hlen], ?_⟩
      · simp only [execActions]
        rw [h1]
        dsimp only
        rw [h2]
      · intro i hi
        cases i with
        | zero => exact ⟨w, w1, a, r, rfl, rfl, rfl, h1⟩
        | succ j =>
            have hj : j < rest.length := by simpa using hi
            obtain ⟨wi, wi', b, rj, hb, hrj, hpre, hstep⟩ := hcorr j hj
            refine ⟨wi, wi', b, rj, ?_, ?_, ?_, hstep⟩
            · simpa using hb
            · simpa using hrj
            · simp only [List.take_succ_cons]
              simp only [execActions]
              rw [h1]
              dsimp only
              rw [hpre]

/-- `store_command` never touches the filesystem. -/
theorem store_command_fs (w : World) (c o : String) (s : Bool) :
    (store_command w c o s).1.fs = w.fs := by
  unfold store_command
  cases w.failSchedule with
  | nil => rfl
  | cons b rest => dsimp only; split <;> rfl

/-- The dispatcher's wrap-and-record behaviour for a known-type action
whose next history insert succeeds: handler success becomes
`{success:true, result}`, a handler raise becomes `{success:false, error}`,
and in both cases exactly one history record is appended, stamped with the
pre-action clock. -/
theorem execSingle_wrap (w : World) (kvs : List (String × Val)) (h : Handler)
    (ht : handlerForVal (kvs.lookup "type") = some h)
    (hs : headOk w.failSchedule = true) :
    (∀ res w1, invokeHandler h w (Val.dict kvs) = .ok (res, w1) →
        execSingle w (Val.dict kvs) =
          .ok (Val.dict [("success", Val.b true), ("result", res)],
               (store_command w1 (pyStr (Val.dict kvs)) (pyStr res) true).1) ∧
        (store_command w1 (pyStr (Val.dict kvs)) (pyStr res) true).1.history =
          w.history ++
            [(w.clock, ⟨pyStr (Val.dict kvs), pyStr res, true⟩)]) ∧
    (∀ e, invokeHandler h w (Val.dict kvs) = .error e →
        execSingle w (Val.dict kvs) =
          .ok (Val.dict [("success", Val.b false), ("error", Val.s e)],
               (store_command w (pyStr (Val.dict kvs)) e false).1) ∧
        (store_command w (pyStr (Val.dict kvs)) e false).1.history =
          w.history ++ [(w.clock, ⟨pyStr (Val.dict kvs), e, false⟩)]) := by
  have htf : ∃ t, handlerFor t = some h := by
    unfold handlerForVal at ht
    split at ht
    · exact ⟨_, ht⟩
    · cases ht
  obtain ⟨t, htf⟩ := htf
  constructor
  · intro res w1 hi
    have hk := handler_storeKept t h w (Val.dict kvs) res w1 htf hi
    have hs1 : headOk w1.failSchedule = true := by rw [hk.2.2]; exact hs
    have hok := store_command_ok w1 (pyStr (Val.dict kvs)) (pyStr res) true hs1
    constructor
    · unfold execSingle
      dsimp only
      rw [ht]
      dsimp only
      rw [hi]
      dsimp only
      rw [hok.1, if_pos rfl]
    · rw [hok.2.1, hk.1, hk.2.1]
  · intro e hi
    have hok := store_command_ok w (pyStr (Val.dict kvs)) e false hs
    constructor
    · unfold execSingle
      dsimp only
      rw [ht]
      dsimp only
      rw [hi]
      dsimp only
      rw [hok.1, if_pos rfl]
    · exact hok.2.1

/-! ## Concrete sample worlds and actions for witnesses and
counterexamples -/

/-- A configuration with every capability switched off. -/
def cfgOff : Config :=
  ⟨[(("automation", "enable_shell"), false),
    (("automation", "enable_file_ops"), false)]⟩

/-- A configuration with shell execution enabled. -/
def cfgShellOn : Config := ⟨[(("automation", "enable_shell"), true)]⟩

/-- A quiet baseline world: capabilities off, no tools, empty filesystem
and history, persistence functioning, trivial oracles. -/
def w0 : World where
  config := cfgOff
  has_wtype := false
  has_grim := false
  has_wlrctl := false
  fs := []
  expanduser := fun p => p
  spawnedShell := []
  spawnedCmds := []
  shellOracle := fun _ => ShellOutcome.done 0 "" ""
  runOracle := fun _ => ("", "", 0)
  history := []
  clock := 0
  failSchedule := []

/-- `w0` with shell execution enabled. -/
def w0shell : World := { w0 with config := cfgShellOn }

/-- `w0` with a persistently failing history store (every insert raises). -/
def w0storeDown : World := { w0 with failSchedule := [true, true] }

/-- The scenario plan's first action:
`{"type": "window", "params": {"action": "focus", "target": "kitty"}}`. -/
def actWindowFocus : Val :=
  Val.dict [("type", Val.s "window"),
            ("params", Val.dict [("action", Val.s "focus"),
                                 ("target", Val.s "kitty")])]

/-- The scenario plan's second action:
`{"type": "response", "params": {"text": "done"}}`. -/
def actResponse : Val :=
  Val.dict [("type", Val.s "response"),
            ("params", Val.dict [("text", Val.s "done")])]

/-- An action of a type absent from the handler table. -/
def actUnknown : Val := Val.dict [("type", Val.s "frobnicate")]

/-- A `hyprctl` action (its handler always returns normally). -/
def actHyprctl : Val :=
  Val.dict [("type", Val.s "hyprctl"),
            ("params", Val.dict [("command", Val.s "monitors")])]

/-- A file read of a path that does not exist in `w0` (the handler
raises). -/
def actFileReadMissing : Val :=
  Val.dict [("type", Val.s "file"),
            ("params", Val.dict [("operation", Val.s "read"),
                                 ("path", Val.s "/nope")])]

/-! ## The claims -/

/-- **C1**: for every plan that is a dict with an `"actions"` key holding a
list of N action dicts, `execute_action_plan` returns a list of exactly N
results, the i-th result being the single-action outcome of the i-th
submitted action in the state its predecessors left behind, and an
action's failure never prevents or removes any later result (the loop is
total: every action contributes exactly one result).  Stated under
functioning history persistence (an empty failure schedule); persistence
failure is the subject of C7. -/
theorem C1_plan_n_results (w : World) (acts : List Val)
    (hd : ∀ a ∈ acts, a.isDict = true) (hs : w.failSchedule = []) :
    ∃ rs w',
      execute_action_plan w (Plan.withActions acts) = .ok (Val.list rs, w') ∧
      rs.length = acts.length ∧
      ∀ i, i < acts.length →
        ∃ wi wi' a r, acts.get? i = some a ∧ rs.get? i = some r ∧
          execActions w (acts.take i) = .ok (rs.take i, wi) ∧
          execSingle wi a = .ok (r, wi') := by
  obtain ⟨rs, w', h, -, hlen, hcorr⟩ := execActions_total acts w hd hs
  refine ⟨rs, w', ?_, hlen, hcorr⟩
  unfold execute_action_plan
  dsimp only
  rw [h]

/-- Witness for C1 at a concrete two-action plan whose first action fails
(missing file) and whose second succeeds. -/
theorem C1_plan_n_results_witness :
    ∃ rs w',
      execute_action_plan w0
          (Plan.withActions [actFileReadMissing, actHyprctl]) =
        .ok (Val.list rs, w') ∧
      rs.length = [actFileReadMissing, actHyprctl].length ∧
      ∀ i, i < [actFileReadMissing, actHyprctl].length →
        ∃ wi wi' a r,
          [actFileReadMissing, actHyprctl].get? i = some a ∧
          rs.get? i = some r ∧
          execActions w0 ([actFileReadMissing, actHyprctl].take i) =
            .ok (rs.take i, wi) ∧
          execSingle wi a = .ok (r, wi') :=
  C1_plan_n_results w0 [actFileReadMissing, actHyprctl]
    (by
      intro a ha
      simp only [List.mem_cons, List.not_mem_nil, or_false] at ha
      rcases ha with rfl | rfl <;> rfl)
    rfl

/-- **C2**: a plan that is neither a string nor a dict containing an
`"actions"` key returns the single plan-level error dict immediately, with
the world — history, spawned processes, everything — returned untouched:
zero handler invocations and zero command-history writes. -/
theorem C2_invalid_plan (w : World) :
    execute_action_plan w Plan.invalid =
      .ok (Val.dict [("error", Val.s "invalid plan format")], w) := rfl

/-- **C4 (amended)**: an action whose type misses the fixed handler table
yields the bare `{"error": "unknown action type: ..."}` dict — which
carries no `success` key at all — with the world unchanged: no handler is
invoked and no history record is written. -/
theorem C4_unknown_type (w : World) (kvs : List (String × Val))
    (h : handlerForVal (kvs.lookup "type") = Option.none) :
    execSingle w (Val.dict kvs) =
      .ok (Val.dict [("error",
        Val.s ("unknown action type: " ++ typeStr (kvs.lookup "type")))], w) ∧
    (Val.dict [("error",
       Val.s ("unknown action type: " ++
         typeStr (kvs.lookup "type")))]).get "success" = Option.none := by
  constructor
  · unfold execSingle
    dsimp only
    rw [h]
  · rfl

/-- Witness for C4 (amended) at the concrete unknown-type action. -/
theorem C4_unknown_type_witness :
    execSingle w0 actUnknown =
      .ok (Val.dict [("error",
        Val.s ("unknown action type: " ++
          typeStr ([("type", Val.s "frobnicate")].lookup "type")))], w0) ∧
    (Val.dict [("error",
       Val.s ("unknown action type: " ++
         typeStr ([("type", Val.s "frobnicate")].lookup
           "type")))]).get "success" = Option.none :=
  C4_unknown_type w0 [("type", Val.s "frobnicate")] rfl

/-- **C4 counterexample**: the claim as stated — the result of an
unknown-type action satisfies `{success:false}` — is false: at a concrete
unknown-type action the dispatcher's result is the bare error dict whose
`success` key is absent, not `false`. -/
theorem C4_counterexample :
    execSingle w0 actUnknown =
      .ok (Val.dict [("error", Val.s "unknown action type: frobnicate")],
           w0) ∧
    ¬ (Val.dict [("error",
         Val.s "unknown action type: frobnicate")]).get "success" =
        some (Val.b false) := by
  exact ⟨rfl, fun hc => Option.noConfusion hc⟩

/-- **C5**: a shell action executed while `automation.enable_shell` is
false (the flag is read from the world at the moment of the call) returns
the disabled-capability error with the world untouched — no subprocess is
spawned; and whenever the flag reads true at that moment, the command is
spawned.  -/
theorem C5_shell_gate (w : World) (cmd : String) (t : Int) :
    (w.config.get_bool "automation" "enable_shell" false = false →
      shell_exec w cmd t =
        (Val.dict [("error", Val.s "shell execution disabled")], w)) ∧
    (w.config.get_bool "automation" "enable_shell" false = true →
      (shell_exec w cmd t).2.spawnedShell = w.spawnedShell ++ [cmd]) := by
  constructor
  · intro h
    unfold shell_exec
    rw [h]
    rfl
  · intro h
    unfold shell_exec
    rw [h]
    cases hsh : w.shellOracle cmd <;> rfl

/-- Witness for C5: shell disabled in `w0` (nothing spawned), enabled in
`w0shell` (the command spawned). -/
theorem C5_shell_gate_witness :
    shell_exec w0 "rm -rf /tmp/x" 30 =
      (Val.dict [("error", Val.s "shell execution disabled")], w0) ∧
    (shell_exec w0shell "ls" 30).2.spawnedShell = [] ++ ["ls"] :=
  ⟨(C5_shell_gate w0 "rm -rf /tmp/x" 30).1 rfl,
   (C5_shell_gate w0shell "ls" 30).2 rfl⟩

/-- **C10**: a bare-string plan returns a one-element list whose sole
element is `shell_exec`'s raw dict — which never carries the dispatcher's
`success`/`result` wrapper keys — and the command history is untouched,
whether the shell capability is enabled or disabled (the statement
quantifies over every world). -/
theorem C10_string_plan (w : World) (s : String) :
    execute_action_plan w (Plan.str s) =
      .ok (Val.list [(shell_exec w s 30).1], (shell_exec w s 30).2) ∧
    ((shell_exec w s 30).2).history = w.history ∧
    (shell_exec w s 30).1.get "success" = Option.none ∧
    (shell_exec w s 30).1.get "result" = Option.none := by
  refine ⟨rfl, (shell_exec_storeKept w s 30).1, ?_, ?_⟩
  · unfold shell_exec
    split
    · rfl
    · cases hsh : w.shellOracle s <;> rfl
  · unfold shell_exec
    split
    · rfl
    · cases hsh : w.shellOracle s <;> rfl

/-- **C3 (code evaluated at the failing input)**: the scenario plan
`{"actions":[{"type":"window","params":{"action":"focus","target":"kitty"}},
{"type":"response","params":{"text":"done"}}]}` yields exactly two
results, the first a wrapped compositor-control outcome — but the second
is `{"error": "unknown action type: response"}`, not a success carrying
`{"text": "done"}`: the handler table has no `"response"` entry, although
the Gemini client itself emits response-type plans. -/
theorem C3_response_unhandled :
    ∃ w', execute_action_plan w0
        (Plan.withActions [actWindowFocus, actResponse]) =
      .ok (Val.list
        [Val.dict [("success", Val.b true),
                   ("result", Val.dict [("stdout", Val.s ""),
                                        ("stderr", Val.s ""),
                                        ("rc", Val.i 0)])],
         Val.dict [("error", Val.s "unknown action type: response")]],
        w') :=
  ⟨_, rfl⟩

/-- **C6 counterexample**: with every capability flag off — including
`automation.enable_file_ops` — a file write still performs the filesystem
access and returns `{"success": true}`; no disabled-capability error is
produced, so file actions are not gated as claimed. -/
theorem C6_counterexample :
    w0.config.get_bool "automation" "enable_file_ops" false = false ∧
    file_operation w0 "write" "/tmp/f" (some "x") =
      .ok (Val.dict [("success", Val.b true)],
           { w0 with fs := [("/tmp/f", "x")] }) ∧
    ¬ ({ w0 with fs := [("/tmp/f", "x")] } : World).fs = w0.fs :=
  ⟨rfl, rfl, fun hc => List.noConfusion hc⟩

/-- **C6 (amended)**: file actions are not gated by any capability flag —
the handler performs the write for every world, whatever the
configuration says; and a read of a missing path raises a file-not-found
error that the dispatcher wraps as an action-level `{success:false,
error}` result with the filesystem untouched — not a crash of the plan
execution. -/
theorem C6_file_ungated (w : World) (path c : String)
    (hs : headOk w.failSchedule = true)
    (hmiss : w.fs.lookup (w.expanduser path) = Option.none) :
    file_operation w "write" path (some c) =
      .ok (Val.dict [("success", Val.b true)],
           { w with fs := fsWrite w.fs (w.expanduser path) c }) ∧
    ∃ w', execSingle w (Val.dict [("type", Val.s "file"),
        ("params", Val.dict [("operation", Val.s "read"),
                             ("path", Val.s path)])]) =
      .ok (Val.dict [("success", Val.b false),
            ("error", Val.s ("FileNotFoundError: " ++ w.expanduser path))],
           w') ∧
      w'.fs = w.fs := by
  constructor
  · rfl
  · have hi : invokeHandler fileH w (Val.dict [("type", Val.s "file"),
        ("params", Val.dict [("operation", Val.s "read"),
                             ("path", Val.s path)])]) =
        .error ("FileNotFoundError: " ++ w.expanduser path) := by
      show file_operation w "read" path Option.none = _
      unfold file_operation
      rw [hmiss]
      rfl
    have hw := (execSingle_wrap w [("type", Val.s "file"),
      ("params", Val.dict [("operation", Val.s "read"),
                           ("path", Val.s path)])] fileH rfl hs).2 _ hi
    exact ⟨_, hw.1, store_command_fs _ _ _ _⟩

/-- Witness for C6 (amended) in the quiet world, at a missing path. -/
theorem C6_file_ungated_witness :
    file_operation w0 "write" "/nope" (some "x") =
      .ok (Val.dict [("success", Val.b true)],
           { w0 with fs := fsWrite w0.fs (w0.expanduser "/nope") "x" }) ∧
    ∃ w', execSingle w0 (Val.dict [("type", Val.s "file"),
        ("params", Val.dict [("operation", Val.s "read"),
                             ("path", Val.s "/nope")])]) =
      .ok (Val.dict [("success", Val.b false),
            ("error",
             Val.s ("FileNotFoundError: " ++ w0.expanduser "/nope"))],
           w') ∧
      w'.fs = w0.fs :=
  C6_file_ungated w0 "/nope" "x" rfl rfl

/-- **C7 counterexample**: with a failing history store, a `hyprctl`
action whose handler returns normally does not get its success wrapped
and recorded: the persistence failure is re-raised on the fallback store
and propagates out of `_execute_single_action` to the caller — it is not
merely logged. -/
theorem C7_counterexample :
    (∃ res w1, invokeHandler hyprctlH w0storeDown actHyprctl =
      .ok (res, w1)) ∧
    execSingle w0storeDown actHyprctl = .error storeErrMsg :=
  ⟨⟨_, _, rfl⟩, rfl⟩

/-- **C7 (amended)**: for every known-type dict action whose history
insert succeeds, the dispatcher wraps a handler raise as `{success:false,
error}` and a handler success as `{success:true, result}`, and appends
exactly one command-history record regardless of the handler's outcome,
stamped with the pre-action clock.  (When the insert fails instead, the
failure is not contained: it downgrades the result or propagates, as the
counterexample shows.) -/
theorem C7_wrap_and_record (w : World) (kvs : List (String × Val))
    (h : Handler) (ht : handlerForVal (kvs.lookup "type") = some h)
    (hs : headOk w.failSchedule = true) :
    (∀ res w1, invokeHandler h w (Val.dict kvs) = .ok (res, w1) →
        execSingle w (Val.dict kvs) =
          .ok (Val.dict [("success", Val.b true), ("result", res)],
               (store_command w1 (pyStr (Val.dict kvs)) (pyStr res) true).1) ∧
        (store_command w1 (pyStr (Val.dict kvs)) (pyStr res) true).1.history =
          w.history ++
            [(w.clock, ⟨pyStr (Val.dict kvs), pyStr res, true⟩)]) ∧
    (∀ e, invokeHandler h w (Val.dict kvs) = .error e →
        execSingle w (Val.dict kvs) =
          .ok (Val.dict [("success", Val.b false), ("error", Val.s e)],
               (store_command w (pyStr (Val.dict kvs)) e false).1) ∧
        (store_command w (pyStr (Val.dict kvs)) e false).1.history =
          w.history ++ [(w.clock, ⟨pyStr (Val.dict kvs), e, false⟩)]) :=
  execSingle_wrap w kvs h ht hs

/-- Witness for C7 (amended): a shell action in the quiet world; the
handler returns (the disabled-capability dict) normally, the dispatcher
wraps it as a success and appends one record. -/
theorem C7_wrap_and_record_witness :
    execSingle w0 (Val.dict [("type", Val.s "shell"),
        ("params", Val.dict [("command", Val.s "ls")])]) =
      .ok (Val.dict [("success", Val.b true),
            ("result",
             Val.dict [("error", Val.s "shell execution disabled")])],
           (store_command w0
             (pyStr (Val.dict [("type", Val.s "shell"),
               ("params", Val.dict [("command", Val.s "ls")])]))
             (pyStr (Val.dict [("error",
               Val.s "shell execution disabled")])) true).1) :=
  ((C7_wrap_and_record w0
      [("type", Val.s "shell"),
       ("params", Val.dict [("command", Val.s "ls")])]
      shellH rfl rfl).1
    (Val.dict [("error", Val.s "shell execution disabled")]) w0 rfl).1

/-- A world whose single existing history row shares the current
wall-clock second: the next insert will tie with it. -/
def wTie : World :=
  { w0 with history := [(5, ⟨"old", "o1", true⟩)], clock := 5 }

/-- **C8 counterexample**: append a record in the same wall-clock second
as an existing row.  Both rows then carry timestamp 5, the resulting
table read in its stored order is itself weakly descending, so
`[rowVal old]` is an admissible result of `recent_commands(1)` — sqlite
may return the *old* record first, and it differs from the appended one.
The claim "append r then recent(1) returns r first, for every prior
store contents" is therefore not guaranteed by the code. -/
theorem C8_counterexample :
    (store_command wTie "new" "o2" true).2 = true ∧
    (store_command wTie "new" "o2" true).1.history =
      [(5, ⟨"old", "o1", true⟩), (5, ⟨"new", "o2", true⟩)] ∧
    recentPossible (store_command wTie "new" "o2" true).1 1
      [rowVal ⟨"old", "o1", true⟩] ∧
    ¬ [rowVal ⟨"old", "o1", true⟩] = [rowVal ⟨"new", "o2", true⟩] := by
  refine ⟨rfl, rfl,
    ⟨[(5, ⟨"old", "o1", true⟩), (5, ⟨"new", "o2", true⟩)],
      List.Perm.refl _, ?_, rfl⟩, ?_⟩
  · decide
  · intro hc
    simp [rowVal] at hc

/-- **C8 (amended)**: a succeeding append stamps the appended record with
the current wall-clock second and leaves prior rows alone; *provided the
append falls in a strictly later second than every existing row*, every
admissible result of an immediate `recent_commands(1)` is exactly the
appended record's row; and every admissible result of a
`recent_commands(limit)` query is bounded by the limit (the admissible
orders themselves being weakly most-recent-first by the `ORDER BY`
contract).  Among rows with equal timestamps — inserts within one second
— the order is unspecified and no first-position guarantee exists. -/
theorem C8_store_then_recent (w : World) (cmd out : String) (succ : Bool)
    (hs : headOk w.failSchedule = true) :
    (store_command w cmd out succ).2 = true ∧
    (store_command w cmd out succ).1.history =
      w.history ++ [(w.clock, ⟨cmd, out, succ⟩)] ∧
    ((∀ p ∈ w.history, p.1 < w.clock) →
      ∀ res, recentPossible (store_command w cmd out succ).1 1 res →
        res = [rowVal ⟨cmd, out, succ⟩]) ∧
    (∀ n res, recentPossible (store_command w cmd out succ).1 n res →
      res.length ≤ n) := by
  have hok := store_command_ok w cmd out succ hs
  refine ⟨hok.1, hok.2.1, ?_, ?_⟩
  · intro hfresh res hrp
    obtain ⟨rows, hperm, hpair, hout⟩ := hrp
    rw [hok.2.1] at hperm
    have hmem : (w.clock, (⟨cmd, out, succ⟩ : HRecord)) ∈ rows :=
      hperm.mem_iff.mpr (by simp)
    cases rows with
    | nil => simp at hmem
    | cons q qs =>
        have hq : q ∈ w.history ++ [(w.clock, (⟨cmd, out, succ⟩ : HRecord))] :=
          hperm.mem_iff.mp (List.mem_cons_self _ _)
        rcases List.mem_append.mp hq with hq1 | hq1
        · exfalso
          have hlt : q.1 < w.clock := hfresh q hq1
          rcases List.mem_cons.mp hmem with he | he
          · rw [← he] at hlt
            exact lt_irrefl _ hlt
          · have := (List.pairwise_cons.mp hpair).1 _ he
            simp only at this
            omega
        · simp only [List.mem_singleton] at hq1
          rw [hout, hq1]
          rfl
  · intro n res hrp
    obtain ⟨rows, -, -, hout⟩ := hrp
    rw [hout]
    simp [List.length_take]

/-- Witness for C8 (amended): appending to the empty history of the quiet
world — trivially fresher than all (zero) prior rows — and reading the
sole admissible `recent_commands(1)` result. -/
theorem C8_store_then_recent_witness :
    (store_command w0 "cmd" "out" true).2 = true ∧
    [rowVal ⟨"cmd", "out", true⟩] = [rowVal ⟨"cmd", "out", true⟩] :=
  ⟨(C8_store_then_recent w0 "cmd" "out" true rfl).1,
   (C8_store_then_recent w0 "cmd" "out" true rfl).2.2.1
     (fun p hp => absurd hp (List.not_mem_nil p))
     [rowVal ⟨"cmd", "out", true⟩]
     ⟨[(0, ⟨"cmd", "out", true⟩)], List.Perm.refl _,
      List.pairwise_singleton _ _, rfl⟩⟩

/-- Each connection episode contributes exactly one connection attempt. -/
theorem countConnects_episode (ep : Episode) :
    countConnects (episodeTrace ep) = 1 := by
  cases ep with
  | connFail m => rfl
  | conn reads ending =>
      unfold episodeTrace countConnects
      have hreads : (reads.map TraceEv.handle).filter
          (· = TraceEv.connect) = [] := by
        induction reads with
        | nil => rfl
        | cons r rs ih => simp [List.filter, ih]
      cases ending <;>
        simp [List.filter_append, hreads, List.filter]

/-- **C9 counterexample**: two consecutive clean end-of-stream episodes
produce the trace `[connect, connect]` — the second connection attempt is
not preceded by the 5-second backoff sleep, refuting the claim that the
backoff occurs before every reconnection attempt. -/
theorem C9_counterexample :
    monitorTrace (some "sig")
        [Episode.conn [] ConnEnd.eof, Episode.conn [] ConnEnd.eof] =
      [TraceEv.connect, TraceEv.connect] ∧
    ¬ backoffBeforeReconnect [TraceEv.connect, TraceEv.connect] := by
  refine ⟨rfl, fun hb => ?_⟩
  have h0 := hb 0 rfl
  exact TraceEv.noConfusion (Option.some.inj h0)

/-- **C9 (amended)**: the tailer runs one connection attempt per episode,
indefinitely and without terminating the daemon (the trace function is
total and attempts exactly as many connections as there are episodes);
after a read error or a failed connect it sleeps the fixed 5-second
backoff before the next attempt, but after a clean end-of-stream it
reconnects immediately — no sleep occurs anywhere in such an episode.
With no session signature the tailer gives up silently (empty trace). -/
theorem C9_backoff_on_error (sig : String) (eps : List Episode) :
    countConnects (monitorTrace (some sig) eps) = eps.length ∧
    monitorTrace Option.none eps = [] ∧
    (∀ reads m rest,
      monitorTrace (some sig) (Episode.conn reads (ConnEnd.err m) :: rest) =
        (TraceEv.connect :: reads.map TraceEv.handle) ++ [TraceEv.sleep 5] ++
          monitorTrace (some sig) rest) ∧
    (∀ m rest, monitorTrace (some sig) (Episode.connFail m :: rest) =
        [TraceEv.connect, TraceEv.sleep 5] ++ monitorTrace (some sig) rest) ∧
    (∀ reads rest,
      monitorTrace (some sig) (Episode.conn reads ConnEnd.eof :: rest) =
        (TraceEv.connect :: reads.map TraceEv.handle) ++
          monitorTrace (some sig) rest ∧
      TraceEv.sleep 5 ∉ episodeTrace (Episode.conn reads ConnEnd.eof)) := by
  refine ⟨?_, rfl, ?_, ?_, ?_⟩
  · induction eps with
    | nil => rfl
    | cons ep rest ih =>
        unfold monitorTrace at ih ⊢
        rw [List.map_cons, List.flatten_cons]
        unfold countConnects at ih ⊢
        rw [List.filter_append, List.length_append]
        have := countConnects_episode ep
        unfold countConnects at this
        rw [this, ih]
        simp only [List.length_cons]
        omega
  · intro reads m rest
    unfold monitorTrace episodeTrace
    simp
  · intro m rest
    unfold monitorTrace episodeTrace
    simp
  · intro reads rest
    constructor
    · unfold monitorTrace episodeTrace
      simp
    · simp [episodeTrace]

/-- Witness for C9 (amended), applied at a one-episode error trace. -/
theorem C9_backoff_on_error_witness :
    countConnects (monitorTrace (some "sig")
      [Episode.conn ["l"] (ConnEnd.err "boom")]) =
      [Episode.conn ["l"] (ConnEnd.err "boom")].length :=
  (C9_backoff_on_error "sig" [Episode.conn ["l"] (ConnEnd.err "boom")]).1

end HyprAI
